import Mathlib

/-!
Shallow embedding of the in-memory ledger-account module (`main.py`):
an `Operation` audit record, a standard `Account`, and a `CreditAccount`
variant, together with their validating constructors and the
deposit / withdraw state transitions.

Python `float` inputs are modelled as exact rationals (`ℚ`); a caller
may also pass a non-numeric value, modelled by `Value.nonNum`, so that
the `isinstance` checks of the source are representable.  Python
exceptions become `Except AccErr`; the four typed error kinds follow
the source's distinct raise sites.  `datetime.now()` is modelled by an
explicit timestamp argument threaded into each mutating call.
-/

/-- A possibly non-numeric input value: `num q` models an `int`/`float`
argument with exact value `q`; `nonNum` models any argument failing the
source's `isinstance(x, (int, float))` checks. -/
inductive Value where
  | num (q : ℚ)
  | nonNum
deriving DecidableEq

/-- The four validation-error kinds raised by the source
(`TypeError`/`ValueError` at the amount, balance, credit-limit and
holder check sites respectively). -/
inductive AccErr where
  | InvalidAmount
  | InvalidBalance
  | InvalidCreditLimit
  | InvalidHolder
deriving DecidableEq

/-- `op_type` field: `'deposit' | 'withdraw'`. -/
inductive OpType where
  | deposit
  | withdraw
deriving DecidableEq

/-- `status` field: `'success' | 'fail'`. -/
inductive OpStatus where
  | success
  | fail
deriving DecidableEq

/-- The frozen `Operation` dataclass: one attempted action and its
outcome.  `credit_used = none` models Python's `None`. -/
structure Operation where
  op_type : OpType
  amount : ℚ
  timestamp : Nat
  balance_after : ℚ
  status : OpStatus
  credit_used : Option Bool
deriving DecidableEq

/-- A character of Python's `str.strip()` default whitespace set, as far
as the source's holder validation exercises it. -/
def isPySpace (c : Char) : Bool :=
  c = ' ' || c = '\t' || c = '\n' || c = '\r'

/-- `str.strip()`: drop leading and trailing whitespace.  Holder text is
modelled as a character list so the operation stays kernel-computable. -/
def pyStrip (s : List Char) : List Char :=
  ((s.dropWhile isPySpace).reverse.dropWhile isPySpace).reverse

/-- The standard `Account` state: holder, private balance, history. -/
structure Account where
  holder : List Char
  balance : ℚ
  operations_history : List Operation
deriving DecidableEq

/-- The `CreditAccount` state: `Account`'s fields plus `credit_limit`. -/
structure CreditAccount where
  holder : List Char
  balance : ℚ
  credit_limit : ℚ
  operations_history : List Operation
deriving DecidableEq

instance {ε α : Type} [DecidableEq ε] [DecidableEq α] : DecidableEq (Except ε α) := fun x y =>
  match x, y with
  | .ok a, .ok b =>
    if h : a = b then .isTrue (by rw [h]) else .isFalse (by simp [h])
  | .error e, .error f =>
    if h : e = f then .isTrue (by rw [h]) else .isFalse (by simp [h])
  | .ok _, .error _ => .isFalse (by simp)
  | .error _, .ok _ => .isFalse (by simp)

/-- `Account._validate_amount`: the amount must be a number and `> 0`;
both failure modes raise the same amount-validation error kind. -/
def validate_amount : Value → Except AccErr ℚ
  | .num q => if q ≤ 0 then .error .InvalidAmount else .ok q
  | .nonNum => .error .InvalidAmount

/-- `Account.__init__`: rejects an empty / whitespace-only holder, a
non-numeric balance, and a negative balance; stores the trimmed holder,
the balance, and an empty history. -/
def mkAccount (account_holder : List Char) (balance : Value) : Except AccErr Account :=
  if pyStrip account_holder = [] then .error .InvalidHolder
  else
    match balance with
    | .nonNum => .error .InvalidBalance
    | .num b =>
      if b < 0 then .error .InvalidBalance
      else .ok ⟨pyStrip account_holder, b, []⟩

/-- `CreditAccount.__init__`: validates the credit limit first (numeric,
non-negative), then the balance (numeric, `≥ -credit_limit`), then the
holder; stores the trimmed holder, balance, credit limit, empty history. -/
def mkCreditAccount (account_holder : List Char) (balance credit_limit : Value) :
    Except AccErr CreditAccount :=
  match credit_limit with
  | .nonNum => .error .InvalidCreditLimit
  | .num cl =>
    if cl < 0 then .error .InvalidCreditLimit
    else
      match balance with
      | .nonNum => .error .InvalidBalance
      | .num b =>
        if b < -cl then .error .InvalidBalance
        else if pyStrip account_holder = [] then .error .InvalidHolder
        else .ok ⟨pyStrip account_holder, b, cl, []⟩

/-- `Account.deposit`: validate, add to balance, append a success record
with `credit_used = None`, return `True`. -/
def Account.deposit (a : Account) (amount : Value) (t : Nat) :
    Except AccErr (Account × Bool) := do
  let amt ← validate_amount amount
  let b := a.balance + amt
  .ok (⟨a.holder, b, a.operations_history ++ [⟨.deposit, amt, t, b, .success, none⟩]⟩, true)

/-- `Account.withdraw`: validate; if `amount > balance` append a fail
record at the unchanged balance and return `False`; otherwise subtract
and append a success record. -/
def Account.withdraw (a : Account) (amount : Value) (t : Nat) :
    Except AccErr (Account × Bool) := do
  let amt ← validate_amount amount
  if a.balance < amt then
    .ok (⟨a.holder, a.balance,
      a.operations_history ++ [⟨.withdraw, amt, t, a.balance, .fail, none⟩]⟩, false)
  else
    let b := a.balance - amt
    .ok (⟨a.holder, b, a.operations_history ++ [⟨.withdraw, amt, t, b, .success, none⟩]⟩, true)

/-- `Account.get_balance`. -/
def Account.get_balance (a : Account) : ℚ := a.balance

/-- One row of `Account.get_history`'s output: the `Operation` fields
with the timestamp rendered as text. -/
structure HistoryRow where
  op_type : OpType
  amount : ℚ
  timestamp : String
  balance_after : ℚ
  status : OpStatus
  credit_used : Option Bool
deriving DecidableEq

/-- The second-resolution textual timestamp of `get_history`
(`isoformat(sep=" ", timespec="seconds")` over the model clock). -/
def formatTimestamp (t : Nat) : String := toString t

/-- `Account.get_history`: a fresh list of fresh rows, one per recorded
operation in insertion order, with the timestamp rendered as text. -/
def Account.get_history (a : Account) : List HistoryRow :=
  a.operations_history.map fun op =>
    ⟨op.op_type, op.amount, formatTimestamp op.timestamp, op.balance_after,
      op.status, op.credit_used⟩

/-- `CreditAccount.get_available_credit`: `balance + credit_limit`. -/
def CreditAccount.get_available_credit (c : CreditAccount) : ℚ :=
  c.balance + c.credit_limit

/-- `CreditAccount.deposit`: as the base deposit, but the success record
always carries `credit_used = False`. -/
def CreditAccount.deposit (c : CreditAccount) (amount : Value) (t : Nat) :
    Except AccErr (CreditAccount × Bool) := do
  let amt ← validate_amount amount
  let b := c.balance + amt
  .ok (⟨c.holder, b, c.credit_limit,
    c.operations_history ++ [⟨.deposit, amt, t, b, .success, some false⟩]⟩, true)

/-- `CreditAccount.withdraw`: validate; if the new balance would breach
`-credit_limit`, append a fail record with `credit_used = (balance < 0)`
at the unchanged balance and return `False`; otherwise commit the new
balance and append a success record with
`credit_used = was_credit_used_before or (balance < 0)`. -/
def CreditAccount.withdraw (c : CreditAccount) (amount : Value) (t : Nat) :
    Except AccErr (CreditAccount × Bool) := do
  let amt ← validate_amount amount
  let new_balance := c.balance - amt
  if new_balance < -c.credit_limit then
    let credit_used := decide (c.balance < 0)
    .ok (⟨c.holder, c.balance, c.credit_limit,
      c.operations_history ++ [⟨.withdraw, amt, t, c.balance, .fail, some credit_used⟩]⟩,
      false)
  else
    let was_credit_used_before := decide (c.balance < 0)
    let credit_used := was_credit_used_before || decide (new_balance < 0)
    .ok (⟨c.holder, new_balance, c.credit_limit,
      c.operations_history ++
        [⟨.withdraw, amt, t, new_balance, .success, some credit_used⟩]⟩, true)

/-- `CreditAccount.get_history`: identical projection over the credit
account's own history. -/
def CreditAccount.get_history (c : CreditAccount) : List HistoryRow :=
  c.operations_history.map fun op =>
    ⟨op.op_type, op.amount, formatTimestamp op.timestamp, op.balance_after,
      op.status, op.credit_used⟩

/-- One caller-issued deposit or withdraw call, with its amount argument
and the wall-clock instant at which it runs. -/
inductive Cmd where
  | dep (amount : Value) (t : Nat)
  | wd (amount : Value) (t : Nat)
deriving DecidableEq

/-- Apply one call to a standard account.  A validation error leaves the
account untouched (the exception propagates before any mutation). -/
def Account.run (a : Account) : Cmd → Account
  | .dep v t =>
    match a.deposit v t with
    | .ok (a', _) => a'
    | .error _ => a
  | .wd v t =>
    match a.withdraw v t with
    | .ok (a', _) => a'
    | .error _ => a

/-- Apply a sequence of calls, left to right, to a standard account. -/
def Account.runCmds (a : Account) (cmds : List Cmd) : Account :=
  cmds.foldl Account.run a

/-- Apply one call to a credit account; a validation error leaves the
account untouched. -/
def CreditAccount.run (c : CreditAccount) : Cmd → CreditAccount
  | .dep v t =>
    match c.deposit v t with
    | .ok (c', _) => c'
    | .error _ => c
  | .wd v t =>
    match c.withdraw v t with
    | .ok (c', _) => c'
    | .error _ => c

/-- Apply a sequence of calls, left to right, to a credit account. -/
def CreditAccount.runCmds (c : CreditAccount) (cmds : List Cmd) : CreditAccount :=
  cmds.foldl CreditAccount.run c

/-- Signed contribution of one recorded operation to the balance:
successful deposits count positively, successful withdrawals
negatively, failed operations not at all. -/
def opDelta (op : Operation) : ℚ :=
  if op.status = .success then
    match op.op_type with
    | .deposit => op.amount
    | .withdraw => -op.amount
  else 0

/-- Net balance movement recorded in a history. -/
def ledgerDelta (l : List Operation) : ℚ := (l.map opDelta).sum

/-- An operation record with the credit flag erased: the projection on
which a standard and a credit history are compared. -/
def stripCreditFlag (op : Operation) : Operation :=
  ⟨op.op_type, op.amount, op.timestamp, op.balance_after, op.status, none⟩

example : validate_amount (.num 3) = .ok 3 := by rfl
example : validate_amount (.num 0) = .error .InvalidAmount := by rfl
example : validate_amount .nonNum = .error .InvalidAmount := by rfl
example : mkAccount ['I'] (.num 100) = .ok ⟨['I'], 100, []⟩ := by decide
example : mkAccount [' ', ' '] (.num 100) = .error .InvalidHolder := by decide
example : mkCreditAccount ['P'] (.num (-100)) (.num 300) = .ok ⟨['P'], -100, 300, []⟩ := by
  decide

theorem ok_bind_eq {ε α β : Type} (a : α) (f : α → Except ε β) :
    (Except.ok a : Except ε α) >>= f = f a := rfl

theorem error_bind_eq {ε α β : Type} (e : ε) (f : α → Except ε β) :
    (Except.error e : Except ε α) >>= f = Except.error e := rfl

theorem validate_amount_pos {v : Value} {q : ℚ} (h : validate_amount v = .ok q) : 0 < q := by
  cases v with
  | num r =>
    by_cases hr : r ≤ 0
    · simp [validate_amount, hr] at h
    · simp [validate_amount, hr] at h
      simpa [← h] using lt_of_not_le hr
  | nonNum => simp [validate_amount] at h

theorem validate_amount_of_pos {w : ℚ} (hw : 0 < w) : validate_amount (.num w) = .ok w := by
  simp [validate_amount, not_le.mpr hw]

/-- C4: a valid deposit `d > 0` always succeeds and returns `True`, the
new balance is the old balance plus `d`, and exactly one success record
is appended with amount `d` and `balance_after` the new balance; its
credit flag is unset on a standard account and `False` on a credit
account even when the resulting balance is still negative. -/
theorem deposit_spec (a : Account) (c : CreditAccount) (d : ℚ) (t u : Nat) (hd : 0 < d) :
    a.deposit (.num d) t = .ok (⟨a.holder, a.balance + d,
      a.operations_history ++ [⟨.deposit, d, t, a.balance + d, .success, none⟩]⟩, true) ∧
    c.deposit (.num d) u = .ok (⟨c.holder, c.balance + d, c.credit_limit,
      c.operations_history ++ [⟨.deposit, d, u, c.balance + d, .success, some false⟩]⟩,
      true) := by
  constructor
  · simp [Account.deposit, validate_amount_of_pos hd, ok_bind_eq]
  · simp [CreditAccount.deposit, validate_amount_of_pos hd, ok_bind_eq]

theorem deposit_spec_witness :
    (0 : ℚ) < 80 ∧
    Account.deposit ⟨['I'], 100, []⟩ (.num 80) 1 = .ok (⟨['I'], 180,
      [⟨.deposit, 80, 1, 180, .success, none⟩]⟩, true) ∧
    CreditAccount.deposit ⟨['P'], -100, 300, []⟩ (.num 80) 2 = .ok (⟨['P'], -20, 300,
      [⟨.deposit, 80, 2, -20, .success, some false⟩]⟩, true) := by
  have h := deposit_spec ⟨['I'], 100, []⟩ ⟨['P'], -100, 300, []⟩ 80 1 2 (by norm_num)
  norm_num at h
  exact ⟨by norm_num, h.1, h.2⟩

/-- C3: on a standard account a valid withdrawal `w > 0` with
`w > balance` leaves the balance unchanged, appends a fail record whose
`balance_after` is the unchanged balance and whose credit flag is unset,
and returns `False`; otherwise it decreases the balance by exactly `w`,
appends a success record, and returns `True` — in particular
`w = balance` succeeds and yields balance `0`. -/
theorem account_withdraw_spec (a : Account) (w : ℚ) (t : Nat) (hw : 0 < w) :
    (if a.balance < w then
      a.withdraw (.num w) t = .ok (⟨a.holder, a.balance,
        a.operations_history ++ [⟨.withdraw, w, t, a.balance, .fail, none⟩]⟩, false)
    else
      a.withdraw (.num w) t = .ok (⟨a.holder, a.balance - w,
        a.operations_history ++ [⟨.withdraw, w, t, a.balance - w, .success, none⟩]⟩, true)) ∧
    (w = a.balance →
      a.withdraw (.num w) t = .ok (⟨a.holder, 0,
        a.operations_history ++ [⟨.withdraw, w, t, 0, .success, none⟩]⟩, true)) := by
  constructor
  · by_cases hlt : a.balance < w
    · simp [hlt, Account.withdraw, validate_amount_of_pos hw, ok_bind_eq]
    · simp [hlt, Account.withdraw, validate_amount_of_pos hw, ok_bind_eq]
  · intro heq
    subst heq
    simp [Account.withdraw, validate_amount_of_pos hw, ok_bind_eq, lt_irrefl, sub_self]

theorem account_withdraw_spec_witness :
    (0 : ℚ) < 150 ∧
    Account.withdraw ⟨['I'], 150, []⟩ (.num 500) 3 = .ok (⟨['I'], 150,
      [⟨.withdraw, 500, 3, 150, .fail, none⟩]⟩, false) ∧
    Account.withdraw ⟨['I'], 150, []⟩ (.num 150) 4 = .ok (⟨['I'], 0,
      [⟨.withdraw, 150, 4, 0, .success, none⟩]⟩, true) := by
  have h1 := (account_withdraw_spec ⟨['I'], 150, []⟩ 500 3 (by norm_num)).1
  have h2 := (account_withdraw_spec ⟨['I'], 150, []⟩ 150 4 (by norm_num)).2
  norm_num at h1 h2
  exact ⟨by norm_num, h1, h2⟩

/-- C1: on a credit account a valid withdrawal `w > 0` succeeds exactly
when `balance - w ≥ -credit_limit`; on success the new balance is
`balance - w` and the appended success record carries
`credit_used = (balanceBefore < 0) or (balanceAfter < 0)`; on rejection
the balance is unchanged, a fail record is appended at the unchanged
balance with `credit_used = (balanceBefore < 0)`.  The boundary
`balance - w = -credit_limit` falls in the success branch. -/
theorem credit_withdraw_spec (c : CreditAccount) (w : ℚ) (t : Nat) (hw : 0 < w) :
    if -c.credit_limit ≤ c.balance - w then
      c.withdraw (.num w) t = .ok (⟨c.holder, c.balance - w, c.credit_limit,
        c.operations_history ++ [⟨.withdraw, w, t, c.balance - w, .success,
          some (decide (c.balance < 0) || decide (c.balance - w < 0))⟩]⟩, true)
    else
      c.withdraw (.num w) t = .ok (⟨c.holder, c.balance, c.credit_limit,
        c.operations_history ++ [⟨.withdraw, w, t, c.balance, .fail,
          some (decide (c.balance < 0))⟩]⟩, false) := by
  by_cases hge : -c.credit_limit ≤ c.balance - w
  · have hnb : ¬ c.balance - w < -c.credit_limit := not_lt.mpr hge
    simp [hge, CreditAccount.withdraw, validate_amount_of_pos hw, ok_bind_eq, hnb]
  · have hb : c.balance - w < -c.credit_limit := lt_of_not_le hge
    simp [hge, CreditAccount.withdraw, validate_amount_of_pos hw, ok_bind_eq, hb]

theorem credit_withdraw_spec_witness :
    (0 : ℚ) < 300 ∧ (0 : ℚ) < 1 ∧
    CreditAccount.withdraw ⟨['P'], 0, 300, []⟩ (.num 300) 5 = .ok (⟨['P'], -300, 300,
      [⟨.withdraw, 300, 5, -300, .success, some true⟩]⟩, true) ∧
    CreditAccount.withdraw ⟨['P'], -300, 300, []⟩ (.num 1) 6 = .ok (⟨['P'], -300, 300,
      [⟨.withdraw, 1, 6, -300, .fail, some true⟩]⟩, false) := by
  have h1 := credit_withdraw_spec ⟨['P'], 0, 300, []⟩ 300 5 (by norm_num)
  have h2 := credit_withdraw_spec ⟨['P'], -300, 300, []⟩ 1 6 (by norm_num)
  norm_num at h1 h2
  exact ⟨by norm_num, by norm_num, h1, h2⟩

/-- C6: a deposit or withdraw call, on either account variant, whose
amount is not a number or is `≤ 0` fails with the amount-validation
error kind — the same kind in both cases — appends no record and leaves
the balance and history completely unchanged. -/
theorem invalid_amount_spec (a : Account) (c : CreditAccount) (v : Value) (t : Nat)
    (hv : v = .nonNum ∨ ∃ q, v = .num q ∧ q ≤ 0) :
    a.deposit v t = .error .InvalidAmount ∧
    a.withdraw v t = .error .InvalidAmount ∧
    c.deposit v t = .error .InvalidAmount ∧
    c.withdraw v t = .error .InvalidAmount ∧
    a.run (.dep v t) = a ∧ a.run (.wd v t) = a ∧
    c.run (.dep v t) = c ∧ c.run (.wd v t) = c := by
  have hval : validate_amount v = .error .InvalidAmount := by
    rcases hv with h | ⟨q, hq, hle⟩
    · simp [h, validate_amount]
    · simp [hq, validate_amount, hle]
  refine ⟨?_, ?_, ?_, ?_, ?_, ?_, ?_, ?_⟩ <;>
    simp [Account.deposit, Account.withdraw, CreditAccount.deposit, CreditAccount.withdraw,
      Account.run, CreditAccount.run, hval, error_bind_eq]

theorem invalid_amount_spec_witness :
    ((Value.num (-5) = .nonNum ∨ ∃ q, Value.num (-5) = .num q ∧ q ≤ 0) ∧
      Account.deposit ⟨['I'], 7, []⟩ (.num (-5)) 1 = .error .InvalidAmount ∧
      Account.run ⟨['I'], 7, []⟩ (.wd (.num (-5)) 1) = ⟨['I'], 7, []⟩) ∧
    ((Value.nonNum = .nonNum ∨ ∃ q, Value.nonNum = .num q ∧ q ≤ 0) ∧
      CreditAccount.withdraw ⟨['P'], 7, 3, []⟩ .nonNum 2 = .error .InvalidAmount ∧
      CreditAccount.run ⟨['P'], 7, 3, []⟩ (.dep .nonNum 2) = ⟨['P'], 7, 3, []⟩) := by
  have h1 := invalid_amount_spec ⟨['I'], 7, []⟩ ⟨['P'], 7, 3, []⟩ (.num (-5)) 1
    (.inr ⟨-5, rfl, by norm_num⟩)
  have h2 := invalid_amount_spec ⟨['I'], 7, []⟩ ⟨['P'], 7, 3, []⟩ .nonNum 2 (.inl rfl)
  exact ⟨⟨.inr ⟨-5, rfl, by norm_num⟩, h1.1, h1.2.2.2.2.2.1⟩,
    ⟨.inl rfl, h2.2.2.2.1, h2.2.2.2.2.2.2.1⟩⟩

/-- C7: the credit-account constructor rejects a negative or
non-numeric credit limit with the credit-limit error, an initial balance
below `-credit_limit` (or non-numeric) with the balance error, and an
empty or whitespace-only holder with the holder error; it accepts every
initial balance `≥ -credit_limit` — in particular a negative balance in
`[-credit_limit, 0)`, with no further `balance ≥ 0` requirement — and
then stores the trimmed holder, the balance and the credit limit, with
an empty history. -/
theorem mkCreditAccount_spec (h h₂ : List Char) (b b₂ cl cl₂ : ℚ)
    (hcl : 0 ≤ cl) (hb : -cl ≤ b) (hh : pyStrip h ≠ [])
    (hcl₂ : cl₂ < 0) (hb₂ : b₂ < -cl) (hh₂ : pyStrip h₂ = []) :
    mkCreditAccount h (.num b) (.num cl) = .ok ⟨pyStrip h, b, cl, []⟩ ∧
    mkCreditAccount h (.num b) (.num cl₂) = .error .InvalidCreditLimit ∧
    mkCreditAccount h (.num b) .nonNum = .error .InvalidCreditLimit ∧
    mkCreditAccount h (.num b₂) (.num cl) = .error .InvalidBalance ∧
    mkCreditAccount h .nonNum (.num cl) = .error .InvalidBalance ∧
    mkCreditAccount h₂ (.num b) (.num cl) = .error .InvalidHolder := by
  have hcln : ¬ cl < 0 := not_lt.mpr hcl
  have hbn : ¬ b < -cl := not_lt.mpr hb
  refine ⟨?_, ?_, ?_, ?_, ?_, ?_⟩ <;>
    simp [mkCreditAccount, hcln, hbn, hh, hcl₂, hb₂, hh₂]

theorem mkCreditAccount_spec_witness :
    ((0 : ℚ) ≤ 300 ∧ -(300 : ℚ) ≤ -100 ∧ pyStrip ['P', ' '] ≠ [] ∧
      (-2 : ℚ) < 0 ∧ (-301 : ℚ) < -(300 : ℚ) ∧ pyStrip [' ', ' '] = []) ∧
    mkCreditAccount ['P', ' '] (.num (-100)) (.num 300) = .ok ⟨['P'], -100, 300, []⟩ ∧
    mkCreditAccount ['P', ' '] (.num (-100)) (.num (-2)) = .error .InvalidCreditLimit ∧
    mkCreditAccount ['P', ' '] (.num (-100)) .nonNum = .error .InvalidCreditLimit ∧
    mkCreditAccount ['P', ' '] (.num (-301)) (.num 300) = .error .InvalidBalance ∧
    mkCreditAccount ['P', ' '] .nonNum (.num 300) = .error .InvalidBalance ∧
    mkCreditAccount [' ', ' '] (.num (-100)) (.num 300) = .error .InvalidHolder := by
  have h := mkCreditAccount_spec ['P', ' '] [' ', ' '] (-100) (-301) 300 (-2)
    (by norm_num) (by norm_num) (by decide) (by norm_num) (by norm_num) (by decide)
  exact ⟨⟨by norm_num, by norm_num, by decide, by norm_num, by norm_num, by decide⟩, h⟩

theorem Account.run_nonneg (a : Account) (cmd : Cmd) (h : 0 ≤ a.balance) :
    0 ≤ (a.run cmd).balance := by
  cases cmd with
  | dep v t =>
    cases hv : validate_amount v with
    | error e => simp [Account.run, Account.deposit, hv, error_bind_eq, h]
    | ok q =>
      have hq := validate_amount_pos hv
      simp [Account.run, Account.deposit, hv, ok_bind_eq]
      linarith
  | wd v t =>
    cases hv : validate_amount v with
    | error e => simp [Account.run, Account.withdraw, hv, error_bind_eq, h]
    | ok q =>
      by_cases hlt : a.balance < q
      · simp [Account.run, Account.withdraw, hv, ok_bind_eq, hlt, h]
      · simp [Account.run, Account.withdraw, hv, ok_bind_eq, hlt]
        linarith [not_lt.mp hlt]

theorem Account.runCmds_nonneg (a : Account) (cmds : List Cmd) (h : 0 ≤ a.balance) :
    0 ≤ (a.runCmds cmds).balance := by
  induction cmds generalizing a with
  | nil => simpa [Account.runCmds]
  | cons cmd rest ih =>
    have hstep := a.run_nonneg cmd h
    simpa [Account.runCmds, List.foldl_cons] using ih (a.run cmd) hstep

theorem CreditAccount.run_credit_limit (c : CreditAccount) (cmd : Cmd) :
    (c.run cmd).credit_limit = c.credit_limit := by
  cases cmd with
  | dep v t =>
    cases hv : validate_amount v with
    | error e => simp [CreditAccount.run, CreditAccount.deposit, hv, error_bind_eq]
    | ok q => simp [CreditAccount.run, CreditAccount.deposit, hv, ok_bind_eq]
  | wd v t =>
    cases hv : validate_amount v with
    | error e => simp [CreditAccount.run, CreditAccount.withdraw, hv, error_bind_eq]
    | ok q =>
      by_cases hlt : c.balance - q < -c.credit_limit <;>
        simp [CreditAccount.run, CreditAccount.withdraw, hv, ok_bind_eq, hlt]

theorem CreditAccount.run_floor (c : CreditAccount) (cmd : Cmd)
    (h : -c.credit_limit ≤ c.balance) : -c.credit_limit ≤ (c.run cmd).balance := by
  cases cmd with
  | dep v t =>
    cases hv : validate_amount v with
    | error e => simp [CreditAccount.run, CreditAccount.deposit, hv, error_bind_eq, h]
    | ok q =>
      have hq := validate_amount_pos hv
      simp [CreditAccount.run, CreditAccount.deposit, hv, ok_bind_eq]
      linarith
  | wd v t =>
    cases hv : validate_amount v with
    | error e => simp [CreditAccount.run, CreditAccount.withdraw, hv, error_bind_eq, h]
    | ok q =>
      by_cases hlt : c.balance - q < -c.credit_limit
      · simp [CreditAccount.run, CreditAccount.withdraw, hv, ok_bind_eq, hlt, h]
      · simp [CreditAccount.run, CreditAccount.withdraw, hv, ok_bind_eq, hlt]
        linarith [not_lt.mp hlt]

theorem CreditAccount.runCmds_credit_limit (c : CreditAccount) (cmds : List Cmd) :
    (c.runCmds cmds).credit_limit = c.credit_limit := by
  induction cmds generalizing c with
  | nil => simp [CreditAccount.runCmds]
  | cons cmd rest ih =>
    simpa [CreditAccount.runCmds, List.foldl_cons, c.run_credit_limit cmd]
      using ih (c.run cmd)

theorem CreditAccount.runCmds_floor (c : CreditAccount) (cmds : List Cmd)
    (h : -c.credit_limit ≤ c.balance) : -c.credit_limit ≤ (c.runCmds cmds).balance := by
  induction cmds generalizing c with
  | nil => simpa [CreditAccount.runCmds]
  | cons cmd rest ih =>
    have hstep := c.run_floor cmd h
    have := ih (c.run cmd) (by rwa [c.run_credit_limit cmd])
    rw [c.run_credit_limit cmd] at this
    simpa [CreditAccount.runCmds, List.foldl_cons] using this

theorem mkAccount_ok {h : List Char} {v : Value} {a : Account}
    (hok : mkAccount h v = .ok a) :
    ∃ b : ℚ, v = .num b ∧ 0 ≤ b ∧ a = ⟨pyStrip h, b, []⟩ := by
  by_cases hh : pyStrip h = []
  · simp [mkAccount, hh] at hok
  · cases v with
    | nonNum => simp [mkAccount, hh] at hok
    | num b =>
      by_cases hb : b < 0
      · simp [mkAccount, hh, hb] at hok
      · simp [mkAccount, hh, hb] at hok
        exact ⟨b, rfl, not_lt.mp hb, hok.symm⟩

theorem mkCreditAccount_ok {h : List Char} {vb vcl : Value} {c : CreditAccount}
    (hok : mkCreditAccount h vb vcl = .ok c) :
    ∃ b cl : ℚ, vb = .num b ∧ vcl = .num cl ∧ 0 ≤ cl ∧ -cl ≤ b ∧
      c = ⟨pyStrip h, b, cl, []⟩ := by
  cases vcl with
  | nonNum => simp [mkCreditAccount] at hok
  | num cl =>
    by_cases hcl : cl < 0
    · simp [mkCreditAccount, hcl] at hok
    · cases vb with
      | nonNum => simp [mkCreditAccount, hcl] at hok
      | num b =>
        by_cases hb : b < -cl
        · simp [mkCreditAccount, hcl, hb] at hok
        · by_cases hh : pyStrip h = []
          · simp [mkCreditAccount, hcl, hb, hh] at hok
          · simp [mkCreditAccount, hcl, hb, hh] at hok
            exact ⟨b, cl, rfl, rfl, not_lt.mp hcl, not_lt.mp hb, hok.symm⟩

/-- C2: from any account produced by its validating constructor, every
sequence of deposit / withdraw calls (valid or rejected) keeps a
standard account's balance `≥ 0` and a credit account's balance
`≥ -credit_limit`. -/
theorem balance_invariant_spec (h h₂ : List Char) (vb vb₂ vcl : Value)
    (a : Account) (c : CreditAccount) (cmds cmds₂ : List Cmd)
    (ha : mkAccount h vb = .ok a) (hc : mkCreditAccount h₂ vb₂ vcl = .ok c) :
    0 ≤ (a.runCmds cmds).balance ∧
    -c.credit_limit ≤ (c.runCmds cmds₂).balance := by
  obtain ⟨b, -, hb, rfl⟩ := mkAccount_ok ha
  obtain ⟨b₂, cl, -, -, -, hfloor, rfl⟩ := mkCreditAccount_ok hc
  exact ⟨Account.runCmds_nonneg _ cmds hb, CreditAccount.runCmds_floor _ cmds₂ hfloor⟩

theorem balance_invariant_spec_witness :
    mkAccount ['I'] (.num 100) = .ok ⟨['I'], 100, []⟩ ∧
    mkCreditAccount ['P'] (.num 0) (.num 300) = .ok ⟨['P'], 0, 300, []⟩ ∧
    (0 ≤ (Account.runCmds ⟨['I'], 100, []⟩
      [.dep (.num 50) 1, .wd (.num 500) 2, .wd (.num 120) 3]).balance ∧
    -(⟨['P'], 0, 300, []⟩ : CreditAccount).credit_limit ≤
      (CreditAccount.runCmds ⟨['P'], 0, 300, []⟩
        [.wd (.num 100) 1, .wd (.num 250) 2, .dep (.num 80) 3]).balance) := by
  refine ⟨by decide, by decide, ?_⟩
  exact balance_invariant_spec ['I'] ['P'] (.num 100) (.num 0) (.num 300)
    ⟨['I'], 100, []⟩ ⟨['P'], 0, 300, []⟩
    [.dep (.num 50) 1, .wd (.num 500) 2, .wd (.num 120) 3]
    [.wd (.num 100) 1, .wd (.num 250) 2, .dep (.num 80) 3] (by decide) (by decide)

theorem ledgerDelta_append (l₁ l₂ : List Operation) :
    ledgerDelta (l₁ ++ l₂) = ledgerDelta l₁ + ledgerDelta l₂ := by
  simp [ledgerDelta]

theorem Account.run_step_delta (a : Account) (cmd : Cmd) :
    (a.run cmd).balance - a.balance =
      ledgerDelta (a.run cmd).operations_history - ledgerDelta a.operations_history := by
  cases cmd with
  | dep v t =>
    cases hv : validate_amount v with
    | error e => simp [Account.run, Account.deposit, hv, error_bind_eq]
    | ok q =>
      simp [Account.run, Account.deposit, hv, ok_bind_eq, ledgerDelta_append,
        ledgerDelta, opDelta]
  | wd v t =>
    cases hv : validate_amount v with
    | error e => simp [Account.run, Account.withdraw, hv, error_bind_eq]
    | ok q =>
      by_cases hlt : a.balance < q
      · simp [Account.run, Account.withdraw, hv, ok_bind_eq, hlt, ledgerDelta_append,
          ledgerDelta, opDelta]
      · simp [Account.run, Account.withdraw, hv, ok_bind_eq, hlt, ledgerDelta_append,
          ledgerDelta, opDelta]

theorem CreditAccount.credit_run_step_delta (c : CreditAccount) (cmd : Cmd) :
    (c.run cmd).balance - c.balance =
      ledgerDelta (c.run cmd).operations_history - ledgerDelta c.operations_history := by
  cases cmd with
  | dep v t =>
    cases hv : validate_amount v with
    | error e => simp [CreditAccount.run, CreditAccount.deposit, hv, error_bind_eq]
    | ok q =>
      simp [CreditAccount.run, CreditAccount.deposit, hv, ok_bind_eq, ledgerDelta_append,
        ledgerDelta, opDelta]
  | wd v t =>
    cases hv : validate_amount v with
    | error e => simp [CreditAccount.run, CreditAccount.withdraw, hv, error_bind_eq]
    | ok q =>
      by_cases hlt : c.balance - q < -c.credit_limit
      · simp [CreditAccount.run, CreditAccount.withdraw, hv, ok_bind_eq, hlt,
          ledgerDelta_append, ledgerDelta, opDelta]
      · simp [CreditAccount.run, CreditAccount.withdraw, hv, ok_bind_eq, hlt,
          ledgerDelta_append, ledgerDelta, opDelta]

/-- C5: ledger conservation — for any account (standard or credit) and
any sequence of deposit / withdraw calls, the balance moves by exactly
the sum of successfully recorded deposit amounts minus the sum of
successfully recorded withdrawal amounts (failed records contribute
nothing). -/
theorem ledger_conservation_spec (a : Account) (c : CreditAccount)
    (cmds cmds₂ : List Cmd) :
    (a.runCmds cmds).balance - a.balance =
      ledgerDelta (a.runCmds cmds).operations_history -
        ledgerDelta a.operations_history ∧
    (c.runCmds cmds₂).balance - c.balance =
      ledgerDelta (c.runCmds cmds₂).operations_history -
        ledgerDelta c.operations_history := by
  constructor
  · induction cmds generalizing a with
    | nil => simp [Account.runCmds]
    | cons cmd rest ih =>
      have h1 := a.run_step_delta cmd
      have h2 := ih (a.run cmd)
      simp only [Account.runCmds, List.foldl_cons] at h2 ⊢
      linarith
  · induction cmds₂ generalizing c with
    | nil => simp [CreditAccount.runCmds]
    | cons cmd rest ih =>
      have h1 := c.credit_run_step_delta cmd
      have h2 := ih (c.run cmd)
      simp only [CreditAccount.runCmds, List.foldl_cons] at h2 ⊢
      linarith

/-- C9: on any validly constructed credit account, after any sequence of
deposit / withdraw calls the available credit `balance + credit_limit`
is non-negative. -/
theorem available_credit_nonneg_spec (h : List Char) (vb vcl : Value)
    (c : CreditAccount) (cmds : List Cmd)
    (hc : mkCreditAccount h vb vcl = .ok c) :
    0 ≤ (c.runCmds cmds).get_available_credit := by
  obtain ⟨b, cl, -, -, hcl, hfloor, rfl⟩ := mkCreditAccount_ok hc
  have h1 := CreditAccount.runCmds_floor ⟨pyStrip h, b, cl, []⟩ cmds hfloor
  have h2 := CreditAccount.runCmds_credit_limit ⟨pyStrip h, b, cl, []⟩ cmds
  simp only [CreditAccount.get_available_credit, h2] at *
  linarith

theorem available_credit_nonneg_spec_witness :
    mkCreditAccount ['P'] (.num 0) (.num 300) = .ok ⟨['P'], 0, 300, []⟩ ∧
    0 ≤ (CreditAccount.runCmds ⟨['P'], 0, 300, []⟩
      [.wd (.num 100) 1, .wd (.num 250) 2, .dep (.num 80) 3]).get_available_credit := by
  refine ⟨by decide, ?_⟩
  exact available_credit_nonneg_spec ['P'] (.num 0) (.num 300) ⟨['P'], 0, 300, []⟩
    [.wd (.num 100) 1, .wd (.num 250) 2, .dep (.num 80) 3] (by decide)

/-- C8: `get_history` is a pure projection of the account state — so
repeated calls agree and mutating its (freshly built) result cannot
touch the account — and it preserves insertion order: after one further
deposit or withdraw call with a valid amount, on either variant, the
previously returned row sequence is a strict prefix (one row shorter)
of the newly returned one. -/
theorem get_history_spec (a : Account) (c : CreditAccount) (v : Value) (q : ℚ) (t : Nat)
    (hv : validate_amount v = .ok q) :
    (a.get_history <+: (a.run (.dep v t)).get_history ∧
      (a.run (.dep v t)).get_history.length = a.get_history.length + 1) ∧
    (a.get_history <+: (a.run (.wd v t)).get_history ∧
      (a.run (.wd v t)).get_history.length = a.get_history.length + 1) ∧
    (c.get_history <+: (c.run (.dep v t)).get_history ∧
      (c.run (.dep v t)).get_history.length = c.get_history.length + 1) ∧
    (c.get_history <+: (c.run (.wd v t)).get_history ∧
      (c.run (.wd v t)).get_history.length = c.get_history.length + 1) := by
  refine ⟨⟨?_, ?_⟩, ⟨?_, ?_⟩, ⟨?_, ?_⟩, ⟨?_, ?_⟩⟩
  · simp [Account.run, Account.deposit, hv, ok_bind_eq, Account.get_history]
  · simp [Account.run, Account.deposit, hv, ok_bind_eq, Account.get_history]
  · by_cases hlt : a.balance < q <;>
      simp [Account.run, Account.withdraw, hv, ok_bind_eq, hlt, Account.get_history]
  · by_cases hlt : a.balance < q <;>
      simp [Account.run, Account.withdraw, hv, ok_bind_eq, hlt, Account.get_history]
  · simp [CreditAccount.run, CreditAccount.deposit, hv, ok_bind_eq,
      CreditAccount.get_history]
  · simp [CreditAccount.run, CreditAccount.deposit, hv, ok_bind_eq,
      CreditAccount.get_history]
  · by_cases hlt : c.balance - q < -c.credit_limit <;>
      simp [CreditAccount.run, CreditAccount.withdraw, hv, ok_bind_eq, hlt,
        CreditAccount.get_history]
  · by_cases hlt : c.balance - q < -c.credit_limit <;>
      simp [CreditAccount.run, CreditAccount.withdraw, hv, ok_bind_eq, hlt,
        CreditAccount.get_history]

theorem get_history_spec_witness :
    validate_amount (.num 50) = .ok 50 ∧
    (Account.get_history ⟨['I'], 100, [⟨.deposit, 10, 0, 110, .success, none⟩]⟩ <+:
      (Account.run ⟨['I'], 100, [⟨.deposit, 10, 0, 110, .success, none⟩]⟩
        (.dep (.num 50) 1)).get_history ∧
    (Account.run ⟨['I'], 100, [⟨.deposit, 10, 0, 110, .success, none⟩]⟩
        (.dep (.num 50) 1)).get_history.length =
      (Account.get_history ⟨['I'], 100, [⟨.deposit, 10, 0, 110, .success, none⟩]⟩).length
        + 1) := by
  refine ⟨by rfl, ?_⟩
  exact ((get_history_spec ⟨['I'], 100, [⟨.deposit, 10, 0, 110, .success, none⟩]⟩
    ⟨['P'], 0, 300, []⟩ (.num 50) 50 1 (by rfl)).1 : _)

theorem zero_limit_step (a : Account) (c : CreditAccount) (cmd : Cmd)
    (hbal : a.balance = c.balance) (hcl : c.credit_limit = 0)
    (hh : a.operations_history.map stripCreditFlag =
      c.operations_history.map stripCreditFlag) :
    (a.run cmd).balance = (c.run cmd).balance ∧
    (a.run cmd).operations_history.map stripCreditFlag =
      (c.run cmd).operations_history.map stripCreditFlag := by
  cases cmd with
  | dep v t =>
    cases hv : validate_amount v with
    | error e =>
      simp [Account.run, CreditAccount.run, Account.deposit, CreditAccount.deposit, hv,
        error_bind_eq, hbal, hh]
    | ok q =>
      simp [Account.run, CreditAccount.run, Account.deposit, CreditAccount.deposit, hv,
        ok_bind_eq, hbal, hh, stripCreditFlag]
  | wd v t =>
    cases hv : validate_amount v with
    | error e =>
      simp [Account.run, CreditAccount.run, Account.withdraw, CreditAccount.withdraw, hv,
        error_bind_eq, hbal, hh]
    | ok q =>
      by_cases hlt : a.balance < q
      · have hltc : c.balance < q := hbal ▸ hlt
        have hlt₂ : c.balance - q < -c.credit_limit := by
          rw [hcl]
          linarith
        simp [Account.run, CreditAccount.run, Account.withdraw, CreditAccount.withdraw,
          hv, ok_bind_eq, hlt, hltc, hlt₂, hbal, hh, stripCreditFlag]
      · have hltc : ¬ c.balance < q := hbal ▸ hlt
        have hlt₂ : ¬ c.balance - q < -c.credit_limit := by
          rw [hcl]
          intro hcon
          exact hltc (by linarith)
        simp [Account.run, CreditAccount.run, Account.withdraw, CreditAccount.withdraw,
          hv, ok_bind_eq, hlt, hltc, hlt₂, hbal, hh, stripCreditFlag]

theorem zero_limit_results (a : Account) (c : CreditAccount) (v : Value) (t : Nat)
    (hbal : a.balance = c.balance) (hcl : c.credit_limit = 0) :
    Except.map Prod.snd (a.deposit v t) = Except.map Prod.snd (c.deposit v t) ∧
    Except.map Prod.snd (a.withdraw v t) = Except.map Prod.snd (c.withdraw v t) := by
  cases hv : validate_amount v with
  | error e =>
    simp [Account.deposit, CreditAccount.deposit, Account.withdraw,
      CreditAccount.withdraw, hv, error_bind_eq, Except.map]
  | ok q =>
    refine ⟨?_, ?_⟩
    · simp [Account.deposit, CreditAccount.deposit, hv, ok_bind_eq, Except.map]
    · by_cases hlt : a.balance < q
      · have hlt₂ : c.balance - q < -c.credit_limit := by
          rw [hcl]
          linarith [hbal ▸ hlt]
        simp [Account.withdraw, CreditAccount.withdraw, hv, ok_bind_eq, hlt, hlt₂,
          Except.map]
      · have hlt₂ : ¬ c.balance - q < -c.credit_limit := by
          rw [hcl]
          intro hcon
          exact hlt (by linarith [hbal ▸ hcon])
        simp [Account.withdraw, CreditAccount.withdraw, hv, ok_bind_eq, hlt, hlt₂,
          Except.map]

theorem zero_limit_runCmds (a : Account) (c : CreditAccount) (cmds : List Cmd)
    (hbal : a.balance = c.balance) (hcl : c.credit_limit = 0)
    (hh : a.operations_history.map stripCreditFlag =
      c.operations_history.map stripCreditFlag) :
    (a.runCmds cmds).balance = (c.runCmds cmds).balance ∧
    (a.runCmds cmds).operations_history.map stripCreditFlag =
      (c.runCmds cmds).operations_history.map stripCreditFlag := by
  induction cmds generalizing a c with
  | nil => exact ⟨hbal, hh⟩
  | cons cmd rest ih =>
    obtain ⟨h1, h2⟩ := zero_limit_step a c cmd hbal hcl hh
    have hcl₂ : (c.run cmd).credit_limit = 0 := by rw [c.run_credit_limit cmd, hcl]
    simpa [Account.runCmds, CreditAccount.runCmds, List.foldl_cons] using
      ih (a.run cmd) (c.run cmd) h1 hcl₂ h2

/-- C10: a credit account constructed with credit limit `0` behaves
like a standard account built with the same holder and initial balance:
after any common sequence of deposit / withdraw calls the two balances
coincide, the two histories agree on kind, amount, `balance_after` and
status (differing only in the credit flag), and the next deposit or
withdraw call returns the same outcome (same error, or same
success / rejection boolean) on both. -/
theorem credit_zero_equiv_spec (h : List Char) (vb : Value) (a : Account)
    (c : CreditAccount) (cmds : List Cmd) (v : Value) (t : Nat)
    (ha : mkAccount h vb = .ok a) (hc : mkCreditAccount h vb (.num 0) = .ok c) :
    (a.runCmds cmds).balance = (c.runCmds cmds).balance ∧
    (a.runCmds cmds).operations_history.map stripCreditFlag =
      (c.runCmds cmds).operations_history.map stripCreditFlag ∧
    Except.map Prod.snd ((a.runCmds cmds).deposit v t) =
      Except.map Prod.snd ((c.runCmds cmds).deposit v t) ∧
    Except.map Prod.snd ((a.runCmds cmds).withdraw v t) =
      Except.map Prod.snd ((c.runCmds cmds).withdraw v t) := by
  obtain ⟨b, hvb, -, rfl⟩ := mkAccount_ok ha
  obtain ⟨b₂, cl, hvb₂, hvcl, -, -, rfl⟩ := mkCreditAccount_ok hc
  have hb : b = b₂ := by
    rw [hvb] at hvb₂
    exact Value.num.injEq _ _ ▸ hvb₂
  have hcl0 : cl = 0 := (Value.num.injEq _ _ ▸ hvcl.symm)
  subst hb
  subst hcl0
  obtain ⟨h1, h2⟩ := zero_limit_runCmds ⟨pyStrip h, b, []⟩ ⟨pyStrip h, b, 0, []⟩ cmds
    rfl rfl rfl
  have hclf : (CreditAccount.runCmds ⟨pyStrip h, b, 0, []⟩ cmds).credit_limit = 0 :=
    CreditAccount.runCmds_credit_limit _ cmds
  obtain ⟨h3, h4⟩ := zero_limit_results (Account.runCmds ⟨pyStrip h, b, []⟩ cmds)
    (CreditAccount.runCmds ⟨pyStrip h, b, 0, []⟩ cmds) v t h1 hclf
  exact ⟨h1, h2, h3, h4⟩

theorem credit_zero_equiv_spec_witness :
    mkAccount ['I'] (.num 100) = .ok ⟨['I'], 100, []⟩ ∧
    mkCreditAccount ['I'] (.num 100) (.num 0) = .ok ⟨['I'], 100, 0, []⟩ ∧
    ((Account.runCmds ⟨['I'], 100, []⟩ [.wd (.num 30) 1, .wd (.num 500) 2]).balance =
      (CreditAccount.runCmds ⟨['I'], 100, 0, []⟩
        [.wd (.num 30) 1, .wd (.num 500) 2]).balance ∧
    (Account.runCmds ⟨['I'], 100, []⟩
        [.wd (.num 30) 1, .wd (.num 500) 2]).operations_history.map stripCreditFlag =
      (CreditAccount.runCmds ⟨['I'], 100, 0, []⟩
        [.wd (.num 30) 1, .wd (.num 500) 2]).operations_history.map stripCreditFlag ∧
    Except.map Prod.snd ((Account.runCmds ⟨['I'], 100, []⟩
        [.wd (.num 30) 1, .wd (.num 500) 2]).deposit (.num 5) 3) =
      Except.map Prod.snd ((CreditAccount.runCmds ⟨['I'], 100, 0, []⟩
        [.wd (.num 30) 1, .wd (.num 500) 2]).deposit (.num 5) 3) ∧
    Except.map Prod.snd ((Account.runCmds ⟨['I'], 100, []⟩
        [.wd (.num 30) 1, .wd (.num 500) 2]).withdraw (.num 5) 3) =
      Except.map Prod.snd ((CreditAccount.runCmds ⟨['I'], 100, 0, []⟩
        [.wd (.num 30) 1, .wd (.num 500) 2]).withdraw (.num 5) 3)) := by
  refine ⟨by decide, by decide, ?_⟩
  exact credit_zero_equiv_spec ['I'] (.num 100) ⟨['I'], 100, []⟩ ⟨['I'], 100, 0, []⟩
    [.wd (.num 30) 1, .wd (.num 500) 2] (.num 5) 3 (by decide) (by decide)
